import Mathlib

/-!
# RealityChecker — verification of the detection/batch core

Shallow embedding of the RealityChecker sources:
* `internal/types/types.go` — the probe-result data model and status-code classification,
* `internal/batch/manager.go` — the concurrent batch engine, report statistics and
  star scoring used for sorting,
* the configuration loader (`validateAndSetDefaults`) and the table formatter's
  recommendation-star rendering.

Go machine integers (`int`, `int64`, `time.Duration` in nanoseconds) are modelled as `Int`;
Go `nil` pointers to sub-result structs are modelled as `Option`; Go errors are modelled as
`Option String` holding the error message.  Goroutine interleavings are modelled as event
traces consumed by the collection loop, which in the source is a `select` loop over a result
channel, the cancellation context and the global timer.
-/

namespace RealityChecker

/-! ## Data model (`internal/types/types.go`) -/

/-- `NetworkResult` of `types.go`. Headers are an association list. -/
structure NetworkResult where
  Accessible : Bool
  ResponseTime : Int
  StatusCode : Int
  FinalDomain : String
  RedirectChain : List String
  IsRedirected : Bool
  RedirectCount : Int
  URL : String
  HandshakeTime : Int
  Headers : List (String × String)
  CertificateIssuer : String
  CertificateSubject : String
deriving DecidableEq, Repr

/-- `TLSResult` of `types.go`. `HandshakeTime` is a `time.Duration` in nanoseconds. -/
structure TLSResult where
  ProtocolVersion : String
  SupportsTLS13 : Bool
  SupportsX25519 : Bool
  SupportsHTTP2 : Bool
  CipherSuite : String
  HandshakeTime : Int
deriving DecidableEq, Repr

/-- `CertificateResult` of `types.go` (times as integer nanoseconds since epoch). -/
structure CertificateResult where
  Valid : Bool
  Issuer : String
  Subject : String
  DaysUntilExpiry : Int
  CertificateSANs : List String
  NotBefore : Int
  NotAfter : Int
  Error : String
deriving DecidableEq, Repr

/-- `SNIResult` of `types.go`. -/
structure SNIResult where
  SupportsSNI : Bool
  SNIMatch : Bool
  ServerName : String
deriving DecidableEq, Repr

/-- `CDNResult` of `types.go`; the `error` field is the message, `none` for nil. -/
structure CDNResult where
  IsCDN : Bool
  CDNProvider : String
  Confidence : String
  Evidence : String
  IsHotWebsite : Bool
  Error : Option String
deriving DecidableEq, Repr

/-- `BlockedResult` of `types.go`. -/
structure BlockedResult where
  IsBlocked : Bool
  BlockedReasons : List String
  MatchType : String
deriving DecidableEq, Repr

/-- `PageStatusResult` of `types.go`. -/
structure PageStatusResult where
  StatusCode : Int
  IsAccessible : Bool
  ResponseTime : Int
  Error : String
deriving DecidableEq, Repr

/-- `LocationResult` of `types.go`. -/
structure LocationResult where
  Country : String
  IsDomestic : Bool
  IPAddress : String
  ISP : String
  ASN : String
  City : String
  Region : String
deriving DecidableEq, Repr

/-- `DetectionSummary` of `types.go`. -/
structure DetectionSummary where
  TotalChecks : Int
  PassedChecks : Int
  FailedChecks : Int
  Warnings : List String
  Recommendations : List String
deriving DecidableEq, Repr

/-- `DetectionResult` of `types.go`: the aggregate per-domain result.  Pointer-valued
sub-results are `Option`; the `error` field holds the message of the Go error. -/
structure DetectionResult where
  Domain : String
  Index : Nat
  StartTime : Int
  Duration : Int
  Suitable : Bool
  Error : Option String
  HardRequirementsMet : Bool
  EarlyExit : Bool
  StatusCodeCategory : String
  Network : Option NetworkResult
  TLS : Option TLSResult
  Certificate : Option CertificateResult
  SNI : Option SNIResult
  CDN : Option CDNResult
  PageStatus : Option PageStatusResult
  Blocked : Option BlockedResult
  Location : Option LocationResult
  Summary : Option DetectionSummary
deriving DecidableEq, Repr

/-- The Go zero value of `DetectionResult` (what `&types.DetectionResult{...}` leaves in
fields that are not mentioned). -/
def zeroResult : DetectionResult :=
  { Domain := "", Index := 0, StartTime := 0, Duration := 0, Suitable := false,
    Error := none, HardRequirementsMet := false, EarlyExit := false,
    StatusCodeCategory := "", Network := none, TLS := none, Certificate := none,
    SNI := none, CDN := none, PageStatus := none, Blocked := none, Location := none,
    Summary := none }

instance : Inhabited DetectionResult := ⟨zeroResult⟩

/-! ## Status-code classification (`internal/types/types.go`) -/

/-- Constant `StatusCodeCategorySafe` of `types.go`. -/
def StatusCodeCategorySafe : String := "safe"

/-- Constant `StatusCodeCategoryExcluded` of `types.go`. -/
def StatusCodeCategoryExcluded : String := "excluded"

/-- Constant `StatusCodeCategoryNetwork` of `types.go`. -/
def StatusCodeCategoryNetwork : String := "network"

/-- `ClassifyStatusCode` of `types.go`: unreachable is `network`; `200` is `safe`;
the listed codes and the `5xx` range are `excluded`; every other code falls through
to the final catch-all `return StatusCodeCategoryExcluded`. -/
def ClassifyStatusCode (statusCode : Int) (accessible : Bool) : String :=
  if !accessible then StatusCodeCategoryNetwork
  else if statusCode = 200 then StatusCodeCategorySafe
  else if statusCode = 301 ∨ statusCode = 302 ∨ statusCode = 401 ∨ statusCode = 403 ∨
          statusCode = 404 ∨ statusCode = 407 ∨ statusCode = 408 ∨ statusCode = 429 then
    StatusCodeCategoryExcluded
  else if 500 ≤ statusCode ∧ statusCode < 600 then StatusCodeCategoryExcluded
  else StatusCodeCategoryExcluded

/-- `IsStatusCodeSafe` of `types.go`. -/
def IsStatusCodeSafe (statusCode : Int) : Bool :=
  ClassifyStatusCode statusCode true = StatusCodeCategorySafe

/-- `IsStatusCodeExcluded` of `types.go`. -/
def IsStatusCodeExcluded (statusCode : Int) : Bool :=
  ClassifyStatusCode statusCode true = StatusCodeCategoryExcluded

lemma safe_ne_network : StatusCodeCategorySafe ≠ StatusCodeCategoryNetwork := by decide

lemma excluded_ne_network : StatusCodeCategoryExcluded ≠ StatusCodeCategoryNetwork := by decide

lemma safe_ne_excluded : StatusCodeCategorySafe ≠ StatusCodeCategoryExcluded := by decide

/-- C2 (counterexample): the claim says an accessible status code is classified `excluded`
exactly when it lies in `{301,302,401,403,404,407,408,429} ∪ [500,600)`; but the code's final
catch-all classifies every other accessible non-200 code as `excluded` too — at input `100`
the code answers `excluded` although `100` is in neither the list nor the range. -/
theorem classifyStatusCode_excluded_catchall_counterexample :
    ClassifyStatusCode 100 true = StatusCodeCategoryExcluded ∧
      ¬(((100 : Int) = 301 ∨ (100 : Int) = 302 ∨ (100 : Int) = 401 ∨ (100 : Int) = 403 ∨
          (100 : Int) = 404 ∨ (100 : Int) = 407 ∨ (100 : Int) = 408 ∨ (100 : Int) = 429) ∨
        (500 ≤ (100 : Int) ∧ (100 : Int) < 600)) := by
  refine ⟨rfl, by decide⟩

/-- C2 (amended): `ClassifyStatusCode` is a pure total function with
`classify(s, false) = network` for every `s`, `classify(s, true) = safe` exactly for
`s = 200`, and `classify(s, true) = excluded` for every accessible status code other
than `200` — the listed set `{301,302,401,403,404,407,408,429}`, the range `[500,600)`,
and, by the final catch-all, every remaining code as well. -/
theorem classifyStatusCode_classification (s : Int) :
    ClassifyStatusCode s false = StatusCodeCategoryNetwork ∧
      (ClassifyStatusCode s true = StatusCodeCategorySafe ↔ s = 200) ∧
      (ClassifyStatusCode s true = StatusCodeCategoryExcluded ↔ s ≠ 200) := by
  refine ⟨rfl, ?_, ?_⟩ <;> by_cases h200 : s = 200 <;>
    simp [ClassifyStatusCode, h200, safe_ne_excluded, Ne.symm safe_ne_excluded]

/-! ## Recommendation stars

Two copies of the same four-star logic exist in the source: `calculateStars` in
`internal/batch/manager.go` (used to sort the suitable-domain table) and
`calculateRecommendationStars` in the table formatter (used to render the
recommendation column, with an early-exit guard).  Both are translated. -/

/-- Go `strings.HasSuffix`, modelled on the character list of the string (for the ASCII
suffixes `".com"`/`".net"` used here this agrees with Go's byte-level test). -/
def strHasSuffix (s suffix : String) : Bool :=
  suffix.data.isSuffixOf s.data

/-- Star predicate 1 of both star functions: the four hard TLS/SNI requirements —
`result.TLS != nil && SupportsTLS13 && SupportsX25519 && SupportsHTTP2 && result.SNI != nil
&& SNIMatch`. -/
def starTLSHard (result : DetectionResult) : Bool :=
  match result.TLS, result.SNI with
  | some tls, some sni =>
      tls.SupportsTLS13 && tls.SupportsX25519 && tls.SupportsHTTP2 && sni.SNIMatch
  | _, _ => false

/-- Star predicate 2 of both star functions: a TLS handshake time was measured
(`result.TLS != nil && HandshakeTime > 0`) and `HandshakeTime.Milliseconds() <= 10`
(Go `Milliseconds()` is the duration in nanoseconds divided by `10^6`, truncated). -/
def starHandshake (result : DetectionResult) : Bool :=
  match result.TLS with
  | some tls => decide (0 < tls.HandshakeTime) && decide (tls.HandshakeTime / 1000000 ≤ 10)
  | none => false

/-- Star predicate 3 of both star functions: `result.CDN == nil || !result.CDN.IsCDN`. -/
def starNoCDN (result : DetectionResult) : Bool :=
  match result.CDN with
  | some cdn => !cdn.IsCDN
  | none => true

/-- Star predicate 4 of both star functions: the domain ends in `.com` or `.net`. -/
def starTLD (result : DetectionResult) : Bool :=
  strHasSuffix result.Domain ".com" || strHasSuffix result.Domain ".net"

/-- `calculateStars` of `internal/batch/manager.go`: `stars := 0` and four independent
`if` blocks, each adding one star. -/
def calculateStars (result : DetectionResult) : Nat :=
  let stars : Nat := 0
  let stars : Nat :=
    match result.TLS, result.SNI with
    | some tls, some sni =>
        if tls.SupportsTLS13 && tls.SupportsX25519 && tls.SupportsHTTP2 && sni.SNIMatch then
          stars + 1
        else stars
    | _, _ => stars
  let stars : Nat :=
    match result.TLS with
    | some tls =>
        if 0 < tls.HandshakeTime then
          if tls.HandshakeTime / 1000000 ≤ 10 then stars + 1 else stars
        else stars
    | none => stars
  let stars : Nat :=
    match result.CDN with
    | some cdn => if !cdn.IsCDN then stars + 1 else stars
    | none => stars + 1
  let stars : Nat :=
    if strHasSuffix result.Domain ".com" || strHasSuffix result.Domain ".net" then stars + 1
    else stars
  stars

/-- The recommendation cell rendered by the table formatter: either the red "无效"
(invalid) marker, or a row of `n` yellow star characters. -/
inductive RecommendText where
  | invalid : RecommendText
  | stars : Nat → RecommendText
deriving DecidableEq, Repr

/-- `calculateRecommendationStars` of the table formatter (`src/unnamed/part_001`):
if `result.EarlyExit` it renders "无效"; otherwise it accumulates the same four stars
as `calculateStars` and renders that many `*`. -/
def calculateRecommendationStars (result : DetectionResult) : RecommendText :=
  if result.EarlyExit then RecommendText.invalid
  else
    let stars : Nat := 0
    let stars : Nat :=
      match result.TLS, result.SNI with
      | some tls, some sni =>
          if tls.SupportsTLS13 && tls.SupportsX25519 && tls.SupportsHTTP2 && sni.SNIMatch then
            stars + 1
          else stars
      | _, _ => stars
    let stars : Nat :=
      match result.TLS with
      | some tls =>
          if 0 < tls.HandshakeTime then
            if tls.HandshakeTime / 1000000 ≤ 10 then stars + 1 else stars
          else stars
      | none => stars
    let stars : Nat :=
      match result.CDN with
      | some cdn => if !cdn.IsCDN then stars + 1 else stars
      | none => stars + 1
    let stars : Nat :=
      if strHasSuffix result.Domain ".com" || strHasSuffix result.Domain ".net" then stars + 1
      else stars
    RecommendText.stars stars

/-- Indicator of a star predicate. -/
def starVal (b : Bool) : Nat := if b then 1 else 0

lemma starVal_le_one (b : Bool) : starVal b ≤ 1 := by
  cases b <;> simp [starVal]

lemma starVal_mono {a b : Bool} (h : a = true → b = true) : starVal a ≤ starVal b := by
  cases a <;> cases b <;> simp_all [starVal]

/-- `calculateStars` is the sum of the indicators of the four star predicates. -/
lemma calculateStars_eq_sum (result : DetectionResult) :
    calculateStars result =
      starVal (starTLSHard result) + starVal (starHandshake result) +
        starVal (starNoCDN result) + starVal (starTLD result) := by
  unfold calculateStars starTLSHard starHandshake starNoCDN starTLD starVal
  cases hT : result.TLS <;> cases hS : result.SNI <;> cases hC : result.CDN <;>
    simp only [] <;> split_ifs <;> simp_all <;> omega

/-- The formatter's star chain computes the same sum. -/
lemma calculateRecommendationStars_eq (result : DetectionResult) :
    calculateRecommendationStars result =
      if result.EarlyExit then RecommendText.invalid
      else RecommendText.stars (calculateStars result) := by
  unfold calculateRecommendationStars calculateStars
  rfl

/-- C4: the star count of `calculateStars` equals the number of the four independent
predicates that hold (hard TLS/SNI requirements; measured handshake time at most 10 ms;
not a CDN; `.com`/`.net` domain), each worth exactly one star; hence it lies in `[0,4]`,
and it is monotonic: making predicates true pointwise never decreases the count. -/
theorem calculateStars_additive_and_monotone :
    (∀ result : DetectionResult,
        calculateStars result =
          starVal (starTLSHard result) + starVal (starHandshake result) +
            starVal (starNoCDN result) + starVal (starTLD result) ∧
        calculateStars result ≤ 4) ∧
      ∀ r s : DetectionResult,
        (starTLSHard r = true → starTLSHard s = true) →
        (starHandshake r = true → starHandshake s = true) →
        (starNoCDN r = true → starNoCDN s = true) →
        (starTLD r = true → starTLD s = true) →
        calculateStars r ≤ calculateStars s := by
  constructor
  · intro result
    refine ⟨calculateStars_eq_sum result, ?_⟩
    rw [calculateStars_eq_sum result]
    have h1 := starVal_le_one (starTLSHard result)
    have h2 := starVal_le_one (starHandshake result)
    have h3 := starVal_le_one (starNoCDN result)
    have h4 := starVal_le_one (starTLD result)
    omega
  · intro r s h1 h2 h3 h4
    rw [calculateStars_eq_sum r, calculateStars_eq_sum s]
    have m1 := starVal_mono h1
    have m2 := starVal_mono h2
    have m3 := starVal_mono h3
    have m4 := starVal_mono h4
    omega

/-- C4 (witness): concrete application — a result with only the "no CDN" star versus a
result that additionally has a `.com` domain; the monotonicity hypotheses are discharged
by evaluation and the counts are `1 ≤ 2`. -/
theorem calculateStars_additive_and_monotone_witness :
    calculateStars { zeroResult with Domain := "example.org" } ≤
      calculateStars { zeroResult with Domain := "example.com" } :=
  calculateStars_additive_and_monotone.2
    { zeroResult with Domain := "example.org" }
    { zeroResult with Domain := "example.com" }
    (by decide) (by decide) (by decide) (by decide)

/-- C5: for every detection result, the rendered recommendation is the "无效" (invalid)
marker whenever `EarlyExit` is set — independent of every other field — and only when
`EarlyExit` is false does the formatter evaluate the star predicates and render
`calculateStars`-many stars. -/
theorem calculateRecommendationStars_earlyExit_invalid (result : DetectionResult) :
    calculateRecommendationStars result =
      if result.EarlyExit then RecommendText.invalid
      else
        RecommendText.stars
          (starVal (starTLSHard result) + starVal (starHandshake result) +
            starVal (starNoCDN result) + starVal (starTLD result)) := by
  rw [calculateRecommendationStars_eq, calculateStars_eq_sum]

/-- C10: a result whose CDN sub-result is absent (`nil`) is awarded the "not a CDN" star,
and both star functions score it identically to a result carrying a confirmed non-CDN
verdict (`IsCDN = false`), all other fields unchanged. -/
theorem stars_cdn_absent_equals_non_cdn (result : DetectionResult) (cdn : CDNResult)
    (h : cdn.IsCDN = false) :
    starNoCDN { result with CDN := none } = true ∧
      calculateStars { result with CDN := none } =
        calculateStars { result with CDN := some cdn } ∧
      calculateRecommendationStars { result with CDN := none } =
        calculateRecommendationStars { result with CDN := some cdn } := by
  refine ⟨rfl, ?_, ?_⟩
  · rw [calculateStars_eq_sum, calculateStars_eq_sum]
    simp [starTLSHard, starHandshake, starNoCDN, starTLD, h]
  · rw [calculateRecommendationStars_eq, calculateRecommendationStars_eq]
    rw [calculateStars_eq_sum, calculateStars_eq_sum]
    simp [starTLSHard, starHandshake, starNoCDN, starTLD, h]

/-- C10 (witness): concrete application at the zero result and a non-CDN verdict record. -/
theorem stars_cdn_absent_equals_non_cdn_witness :
    starNoCDN { zeroResult with CDN := none } = true ∧
      calculateStars { zeroResult with CDN := none } =
        calculateStars
          { zeroResult with
            CDN := some { IsCDN := false, CDNProvider := "", Confidence := "",
                          Evidence := "", IsHotWebsite := false, Error := none } } ∧
      calculateRecommendationStars { zeroResult with CDN := none } =
        calculateRecommendationStars
          { zeroResult with
            CDN := some { IsCDN := false, CDNProvider := "", Confidence := "",
                          Evidence := "", IsHotWebsite := false, Error := none } } :=
  stars_cdn_absent_equals_non_cdn zeroResult
    { IsCDN := false, CDNProvider := "", Confidence := "", Evidence := "",
      IsHotWebsite := false, Error := none } rfl

/-! ## Configuration (`internal/types/types.go`, loader in `src/unnamed/part_000`)

Durations are `time.Duration` values in nanoseconds, modelled as `Int`. -/

/-- `time.Second` in nanoseconds. -/
def second : Int := 1000000000

/-- `time.Minute` in nanoseconds. -/
def minute : Int := 60 * second

/-- `NetworkConfig` of `types.go`. -/
structure NetworkConfig where
  Timeout : Int
  Retries : Int
  DNSServers : List String
deriving DecidableEq, Repr

/-- `TLSConfig` of `types.go` (protocol versions are `uint16` codepoints). -/
structure TLSConfig where
  MinVersion : Nat
  MaxVersion : Nat
  CipherSuites : List Nat
  ServerName : String
  NextProtos : List String
deriving DecidableEq, Repr

/-- `ConcurrencyConfig`.  The `types.go` snapshot in the sources lists only
`MaxConcurrent`, `CheckTimeout` and `CacheTTL`, but the configuration loader
(`src/unnamed/part_000`) and the batch manager (`manager.go`, which sizes its semaphore
from `config.Concurrency.MinConcurrent`) both use a `MinConcurrent` field, so the
repository's actual struct carries it; it is included here. -/
structure ConcurrencyConfig where
  MaxConcurrent : Int
  MinConcurrent : Int
  CheckTimeout : Int
  CacheTTL : Int
deriving DecidableEq, Repr

/-- `OutputConfig` of `types.go`. -/
structure OutputConfig where
  Color : Bool
  Verbose : Bool
  Format : String
deriving DecidableEq, Repr

/-- `CacheConfig` of `types.go`. -/
structure CacheConfig where
  DNSEnabled : Bool
  ResultEnabled : Bool
  TTL : Int
  MaxSize : Int
deriving DecidableEq, Repr

/-- `BatchConfig` of `types.go`. -/
structure BatchConfig where
  StreamOutput : Bool
  ProgressBar : Bool
  ReportFormat : String
  Timeout : Int
deriving DecidableEq, Repr

/-- `Config` of `types.go`. -/
structure Config where
  Network : NetworkConfig
  TLS : TLSConfig
  Concurrency : ConcurrencyConfig
  Output : OutputConfig
  Cache : CacheConfig
  Batch : BatchConfig
deriving DecidableEq, Repr

/-- Network-section branches of `validateAndSetDefaults` (each Go `if` tests an original
field and overwrites only that field). -/
def validateNetworkConfig (network : NetworkConfig) : NetworkConfig :=
  { network with
    Timeout := if network.Timeout ≤ 0 then 30 * second else network.Timeout,
    Retries := if network.Retries < 0 then 3 else network.Retries,
    DNSServers :=
      if network.DNSServers.length = 0 then ["8.8.8.8", "1.1.1.1"] else network.DNSServers }

/-- TLS-section branches of `validateAndSetDefaults`. -/
def validateTLSConfig (tls : TLSConfig) : TLSConfig :=
  { tls with
    MinVersion := if tls.MinVersion = 0 then 771 else tls.MinVersion,
    MaxVersion := if tls.MaxVersion = 0 then 772 else tls.MaxVersion }

/-- Concurrency-section branches of `validateAndSetDefaults`; note that `MinConcurrent`
has no branch in the source and passes through unvalidated. -/
def validateConcurrencyConfig (concurrency : ConcurrencyConfig) : ConcurrencyConfig :=
  { concurrency with
    MaxConcurrent := if concurrency.MaxConcurrent ≤ 0 then 8 else concurrency.MaxConcurrent,
    CheckTimeout := if concurrency.CheckTimeout ≤ 0 then 30 * second else concurrency.CheckTimeout,
    CacheTTL := if concurrency.CacheTTL ≤ 0 then 5 * minute else concurrency.CacheTTL }

/-- Output-section branch of `validateAndSetDefaults`. -/
def validateOutputConfig (output : OutputConfig) : OutputConfig :=
  { output with Format := if output.Format = "" then "table" else output.Format }

/-- Cache-section branches of `validateAndSetDefaults`. -/
def validateCacheConfig (cache : CacheConfig) : CacheConfig :=
  { cache with
    TTL := if cache.TTL ≤ 0 then 5 * minute else cache.TTL,
    MaxSize := if cache.MaxSize ≤ 0 then 1000 else cache.MaxSize }

/-- Batch-section branches of `validateAndSetDefaults`. -/
def validateBatchConfig (batch : BatchConfig) : BatchConfig :=
  { batch with
    ReportFormat := if batch.ReportFormat = "" then "text" else batch.ReportFormat,
    Timeout := if batch.Timeout ≤ 0 then 60 * second else batch.Timeout }

/-- `validateAndSetDefaults` of the configuration loader (`src/unnamed/part_000`). -/
def validateAndSetDefaults (config : Config) : Config :=
  { config with
    Network := validateNetworkConfig config.Network,
    TLS := validateTLSConfig config.TLS,
    Concurrency := validateConcurrencyConfig config.Concurrency,
    Output := validateOutputConfig config.Output,
    Cache := validateCacheConfig config.Cache,
    Batch := validateBatchConfig config.Batch }

/-- The Go zero value of `Config` (what an unpopulated YAML decode leaves behind). -/
def zeroConfig : Config :=
  { Network := { Timeout := 0, Retries := 0, DNSServers := [] },
    TLS := { MinVersion := 0, MaxVersion := 0, CipherSuites := [], ServerName := "",
             NextProtos := [] },
    Concurrency := { MaxConcurrent := 0, MinConcurrent := 0, CheckTimeout := 0, CacheTTL := 0 },
    Output := { Color := false, Verbose := false, Format := "" },
    Cache := { DNSEnabled := false, ResultEnabled := false, TTL := 0, MaxSize := 0 },
    Batch := { StreamOutput := false, ProgressBar := false, ReportFormat := "", Timeout := 0 } }

/-- C9 (counterexample): the claim says that after validation every field of the
configuration holds a positive/non-empty value, but `validateAndSetDefaults` has no branch
for `Concurrency.MinConcurrent` — the very field the batch manager uses as its pool size —
so on the zero configuration it remains `0`, which is not positive. -/
theorem validateAndSetDefaults_minConcurrent_counterexample :
    ¬ 0 < (validateAndSetDefaults zeroConfig).Concurrency.MinConcurrent := by decide

/-- C9 (amended): `validateAndSetDefaults` replaces each field it validates by its fallback —
in particular a network timeout `≤ 0` becomes 30 s, an empty DNS-server list becomes
`{8.8.8.8, 1.1.1.1}`, and a max-concurrency `≤ 0` becomes 8 — and afterwards every
*validated* field is positive/non-empty (timeouts, TTLs, TLS versions, formats, retries
non-negative); `Concurrency.MinConcurrent`, however, is not validated and passes through
unchanged, so it need not be positive. -/
theorem validateAndSetDefaults_fallbacks (c : Config) :
    (validateAndSetDefaults c).Network.Timeout =
        (if c.Network.Timeout ≤ 0 then 30 * second else c.Network.Timeout) ∧
      (validateAndSetDefaults c).Network.DNSServers =
        (if c.Network.DNSServers.length = 0 then ["8.8.8.8", "1.1.1.1"]
         else c.Network.DNSServers) ∧
      (validateAndSetDefaults c).Concurrency.MaxConcurrent =
        (if c.Concurrency.MaxConcurrent ≤ 0 then 8 else c.Concurrency.MaxConcurrent) ∧
      0 < (validateAndSetDefaults c).Network.Timeout ∧
      0 ≤ (validateAndSetDefaults c).Network.Retries ∧
      (validateAndSetDefaults c).Network.DNSServers ≠ [] ∧
      (validateAndSetDefaults c).TLS.MinVersion ≠ 0 ∧
      (validateAndSetDefaults c).TLS.MaxVersion ≠ 0 ∧
      0 < (validateAndSetDefaults c).Concurrency.MaxConcurrent ∧
      0 < (validateAndSetDefaults c).Concurrency.CheckTimeout ∧
      0 < (validateAndSetDefaults c).Concurrency.CacheTTL ∧
      (validateAndSetDefaults c).Output.Format ≠ "" ∧
      0 < (validateAndSetDefaults c).Cache.TTL ∧
      0 < (validateAndSetDefaults c).Cache.MaxSize ∧
      (validateAndSetDefaults c).Batch.ReportFormat ≠ "" ∧
      0 < (validateAndSetDefaults c).Batch.Timeout ∧
      (validateAndSetDefaults c).Concurrency.MinConcurrent = c.Concurrency.MinConcurrent := by
  simp only [validateAndSetDefaults, validateNetworkConfig, validateTLSConfig,
    validateConcurrencyConfig, validateOutputConfig, validateCacheConfig, validateBatchConfig,
    second, minute]
  refine ⟨trivial, trivial, trivial, ?_, ?_, ?_, ?_, ?_, ?_, ?_, ?_, ?_, ?_, ?_, ?_, ?_,
    trivial⟩ <;> split_ifs <;> simp_all

/-! ## Batch report statistics (`generateBatchReport` in `internal/batch/manager.go`) -/

/-- Occurrence of a character pattern in a character list (helper for `strings.Contains`). -/
def occursIn (pattern : List Char) : List Char → Bool
  | [] => decide (pattern = [])
  | c :: rest => pattern.isPrefixOf (c :: rest) || occursIn pattern rest

/-- Go `strings.Contains`, modelled on character lists (for the UTF-8 patterns used in the
report this agrees with Go's byte-level search). -/
def hasSubstring (s sub : String) : Bool :=
  occursIn sub.data s.data

/-- `Statistics` of `types.go` (the counters touched by `generateBatchReport`). -/
structure Statistics where
  TotalDomains : Nat
  SuccessfulChecks : Nat
  FailedChecks : Nat
  SuitableDomains : Nat
  BlockedDomains : Nat
  ErrorDomains : Nat
deriving DecidableEq, Repr

/-- `BatchSummary` rates (Go `float64` quotients, modelled exactly over `ℚ`). -/
structure BatchSummary where
  SuccessRate : ℚ
  SuitabilityRate : ℚ
  BlockingRate : ℚ
deriving DecidableEq, Repr

/-- `BatchReport` of `types.go` (the fields `generateBatchReport` populates). -/
structure BatchReport where
  StartTime : Int
  EndTime : Int
  TotalDuration : Int
  Results : List DetectionResult
  Statistics : Statistics
  Summary : BatchSummary

/-- Body of the `for _, result := range results` loop of `generateBatchReport`:
no error counts as a successful check; an error whose message contains "域名被墙"
(domain blocked) or "国内网站" (domestic site) also counts as successful; every other
error is a failed check; suitable and blocked domains are tallied independently. -/
def updateStatistics (stats : Statistics) (result : DetectionResult) : Statistics :=
  let stats :=
    match result.Error with
    | none => { stats with SuccessfulChecks := stats.SuccessfulChecks + 1 }
    | some errorMsg =>
        if hasSubstring errorMsg "域名被墙" || hasSubstring errorMsg "国内网站" then
          { stats with SuccessfulChecks := stats.SuccessfulChecks + 1 }
        else { stats with FailedChecks := stats.FailedChecks + 1 }
  let stats :=
    if result.Suitable then { stats with SuitableDomains := stats.SuitableDomains + 1 }
    else stats
  let stats :=
    match result.Blocked with
    | some blocked =>
        if blocked.IsBlocked then { stats with BlockedDomains := stats.BlockedDomains + 1 }
        else stats
    | none => stats
  stats

/-- `generateBatchReport` of `internal/batch/manager.go`. -/
def generateBatchReport (results : List DetectionResult) (startTime endTime : Int) :
    BatchReport :=
  let stats :=
    results.foldl updateStatistics
      { TotalDomains := results.length, SuccessfulChecks := 0, FailedChecks := 0,
        SuitableDomains := 0, BlockedDomains := 0, ErrorDomains := 0 }
  { StartTime := startTime, EndTime := endTime, TotalDuration := endTime - startTime,
    Results := results, Statistics := stats,
    Summary :=
      { SuccessRate := (stats.SuccessfulChecks : ℚ) / (stats.TotalDomains : ℚ),
        SuitabilityRate := (stats.SuitableDomains : ℚ) / (stats.TotalDomains : ℚ),
        BlockingRate := (stats.BlockedDomains : ℚ) / (stats.TotalDomains : ℚ) } }

/-- A result counts as a successful check: it has no error, or its error message marks the
domain as blocked ("域名被墙") or as a domestic site ("国内网站"). -/
def isSuccessfulCheck (result : DetectionResult) : Bool :=
  match result.Error with
  | none => true
  | some errorMsg => hasSubstring errorMsg "域名被墙" || hasSubstring errorMsg "国内网站"

lemma updateStatistics_spec (stats : Statistics) (result : DetectionResult) :
    (updateStatistics stats result).SuccessfulChecks =
        stats.SuccessfulChecks + (if isSuccessfulCheck result then 1 else 0) ∧
      (updateStatistics stats result).FailedChecks =
        stats.FailedChecks + (if isSuccessfulCheck result then 0 else 1) ∧
      (updateStatistics stats result).TotalDomains = stats.TotalDomains := by
  unfold updateStatistics isSuccessfulCheck
  cases result.Error <;> cases result.Blocked <;> split_ifs <;>
    simp_all [apply_ite Statistics.SuccessfulChecks, apply_ite Statistics.FailedChecks,
      apply_ite Statistics.TotalDomains]

lemma foldl_updateStatistics_spec (results : List DetectionResult) (stats : Statistics) :
    (results.foldl updateStatistics stats).SuccessfulChecks =
        stats.SuccessfulChecks + results.countP isSuccessfulCheck ∧
      (results.foldl updateStatistics stats).FailedChecks =
        stats.FailedChecks + results.countP (fun r => !isSuccessfulCheck r) ∧
      (results.foldl updateStatistics stats).TotalDomains = stats.TotalDomains := by
  induction results generalizing stats with
  | nil => simp
  | cons result rest ih =>
      obtain ⟨h1, h2, h3⟩ := updateStatistics_spec stats result
      obtain ⟨ih1, ih2, ih3⟩ := ih (updateStatistics stats result)
      refine ⟨?_, ?_, ?_⟩ <;>
        simp [List.foldl_cons, List.countP_cons, ih1, ih2, ih3, h1, h2, h3] <;>
          cases h : isSuccessfulCheck result <;> simp [h] <;> omega

/-- C7: in the batch report, a result is tallied as a successful check exactly when it has
no error or its error message marks it as blocked ("域名被墙") or as a domestic site
("国内网站"); every other result is tallied as a failed check; and the reported success
rate is the number of successful checks divided by the total number of domains. -/
theorem generateBatchReport_success_counting (results : List DetectionResult)
    (startTime endTime : Int) :
    (generateBatchReport results startTime endTime).Statistics.SuccessfulChecks =
        results.countP isSuccessfulCheck ∧
      (generateBatchReport results startTime endTime).Statistics.FailedChecks =
        results.countP (fun r => !isSuccessfulCheck r) ∧
      (generateBatchReport results startTime endTime).Statistics.TotalDomains =
        results.length ∧
      (generateBatchReport results startTime endTime).Summary.SuccessRate =
        (results.countP isSuccessfulCheck : ℚ) / (results.length : ℚ) := by
  obtain ⟨h1, h2, h3⟩ :=
    foldl_updateStatistics_spec results
      { TotalDomains := results.length, SuccessfulChecks := 0, FailedChecks := 0,
        SuitableDomains := 0, BlockedDomains := 0, ErrorDomains := 0 }
  refine ⟨?_, ?_, ?_, ?_⟩ <;> simp [generateBatchReport, h1, h2, h3]

/-! ## Batch engine (`CheckDomains` / `CheckDomainsWithProgress` in `manager.go`)

The collection loop of `CheckDomainsWithProgress` is a `select` loop over the result
channel, the cancellation context and the global timer; the goroutines' channel activity
is linearised into an event trace consumed by the loop. -/

/-- Modelled from the spec: `core.Engine.CheckDomain` (package `internal/core`) is not among
the sources — only its caller is.  Per §4.2 the pipeline engine receives a domain string and
initializes the `DetectionResult` for that domain, so the returned result carries that
domain; every other field (probe sub-results, suitability, error, and in particular the
`Index` field, for which the engine receives no input) is whatever the pipeline run
produced, represented here by the `engine` oracle. -/
def engineCheckDomain (engine : String → DetectionResult) (domain : String) :
    DetectionResult :=
  { engine domain with Domain := domain }

/-- One event observed by the collection loop's `select`: a worker's `ProgressResult`
arriving on the result channel (carrying the worker's input index), the cancellation
context firing, or the global batch timer firing. -/
inductive BatchEvent where
  | result : Nat → BatchEvent
  | cancel : BatchEvent
  | timeout : BatchEvent
deriving DecidableEq, Repr

/-- Outcome of `CheckDomainsWithProgress`: the result list, or the context's error. -/
inductive BatchOutcome where
  | ok : List DetectionResult → BatchOutcome
  | cancelled : BatchOutcome
deriving DecidableEq, Repr

/-- The duration of the global batch timer, `1200 * time.Second`, in seconds. -/
def batchTimeoutSeconds : Nat := 1200

/-- The synthetic result created in the timeout branch of the collection loop:
`&types.DetectionResult{Domain: domain, Index: i, Suitable: false, Error: "检测超时"}`
(all other fields at their zero values). -/
def timeoutResult (domain : String) (i : Nat) : DetectionResult :=
  { zeroResult with Domain := domain, Index := i, Suitable := false, Error := some "检测超时" }

/-- Timeout branch of the collection loop: every slot still `nil` is replaced by the
synthetic timeout result for its domain and input position; filled slots are kept. -/
def fillTimeouts (domains : List String) (slots : List (Option DetectionResult)) :
    List DetectionResult :=
  (List.range domains.length).map fun i =>
    match slots.getD i none with
    | some r => r
    | none => timeoutResult (domains.getD i "") i

/-- The collection loop of `CheckDomainsWithProgress` (`for completed < len(domains)` over
a `select`): a `result i` event stores worker `i`'s pipeline result at slot `i`
(`results[progressResult.Index] = progressResult.Result`) and increments `completed`;
`cancel` returns the context's error; `timeout` fills the unfinished slots with synthetic
timeout results and returns them; once `completed` reaches `len(domains)` the loop exits
and the collected slots are returned.  A trace exhausted before the loop can exit means
the call blocks forever (`none`). -/
def collectLoop (domains : List String) (engine : String → DetectionResult) :
    List BatchEvent → List (Option DetectionResult) → Nat → Option BatchOutcome
  | [], slots, completed =>
    if completed < domains.length then none
    else some (BatchOutcome.ok (slots.map fun slot => slot.getD zeroResult))
  | e :: rest, slots, completed =>
    if completed < domains.length then
      match e with
      | BatchEvent.result i =>
          collectLoop domains engine rest
            (slots.set i (some (engineCheckDomain engine (domains.getD i ""))))
            (completed + 1)
      | BatchEvent.cancel => some BatchOutcome.cancelled
      | BatchEvent.timeout => some (BatchOutcome.ok (fillTimeouts domains slots))
    else some (BatchOutcome.ok (slots.map fun slot => slot.getD zeroResult))

/-- `CheckDomainsWithProgress` of `internal/batch/manager.go`: slots start as
`make([]*types.DetectionResult, len(domains))` (all `nil`) with `completed = 0`. -/
def CheckDomainsWithProgress (domains : List String) (engine : String → DetectionResult)
    (events : List BatchEvent) : Option BatchOutcome :=
  collectLoop domains engine events (List.replicate domains.length none) 0

/-- The two batch-level errors of `CheckDomains`: "批量管理器未运行" (manager not
running) and the cancellation context's error. -/
inductive BatchError where
  | notRunning : BatchError
  | ctxCancelled : BatchError
deriving DecidableEq, Repr

/-- `CheckDomains` of `internal/batch/manager.go`: errors if the manager is not running;
returns an empty list for an empty input; otherwise forwards to
`CheckDomainsWithProgress`, propagating its only possible error (the context's), and
returns the per-domain results (the batch report it prints does not affect the value). -/
def CheckDomains (running : Bool) (domains : List String)
    (engine : String → DetectionResult) (events : List BatchEvent) :
    Option (Except BatchError (List DetectionResult)) :=
  if !running then some (Except.error BatchError.notRunning)
  else if domains.length = 0 then some (Except.ok [])
  else
    match CheckDomainsWithProgress domains engine events with
    | none => none
    | some BatchOutcome.cancelled => some (Except.error BatchError.ctxCancelled)
    | some (BatchOutcome.ok results) => some (Except.ok results)

/-- Folding a completion order's result events into the slot array. -/
def applySlots (domains : List String) (engine : String → DetectionResult)
    (order : List Nat) (slots : List (Option DetectionResult)) :
    List (Option DetectionResult) :=
  order.foldl
    (fun s i => s.set i (some (engineCheckDomain engine (domains.getD i "")))) slots

lemma applySlots_nil (domains : List String) (engine : String → DetectionResult)
    (slots : List (Option DetectionResult)) :
    applySlots domains engine [] slots = slots := rfl

lemma applySlots_cons (domains : List String) (engine : String → DetectionResult)
    (j : Nat) (order : List Nat) (slots : List (Option DetectionResult)) :
    applySlots domains engine (j :: order) slots =
      applySlots domains engine order
        (slots.set j (some (engineCheckDomain engine (domains.getD j "")))) := rfl

lemma length_applySlots (domains : List String) (engine : String → DetectionResult)
    (order : List Nat) (slots : List (Option DetectionResult)) :
    (applySlots domains engine order slots).length = slots.length := by
  induction order generalizing slots with
  | nil => rfl
  | cons j order ih => rw [applySlots_cons, ih, List.length_set]

lemma getElem?_applySlots_of_not_mem (domains : List String)
    (engine : String → DetectionResult) (order : List Nat)
    (slots : List (Option DetectionResult)) (i : Nat) (h : i ∉ order) :
    (applySlots domains engine order slots)[i]? = slots[i]? := by
  induction order generalizing slots with
  | nil => rfl
  | cons j order ih =>
      have hji : j ≠ i := fun hj => h (by rw [← hj]; exact List.mem_cons_self j order)
      rw [applySlots_cons, ih _ (fun hm => h (List.mem_cons_of_mem j hm)),
        List.getElem?_set_ne hji]

lemma getElem?_applySlots_of_mem (domains : List String)
    (engine : String → DetectionResult) (order : List Nat)
    (slots : List (Option DetectionResult)) (i : Nat) (hmem : i ∈ order)
    (hlt : i < slots.length) :
    (applySlots domains engine order slots)[i]? =
      some (some (engineCheckDomain engine (domains.getD i ""))) := by
  induction order generalizing slots with
  | nil => cases hmem
  | cons j order ih =>
      rw [applySlots_cons]
      by_cases hi : i ∈ order
      · exact ih _ hi (by rw [List.length_set]; exact hlt)
      · have hij : i = j := by
          rcases List.mem_cons.mp hmem with h | h
          · exact h
          · exact absurd h hi
        subst hij
        rw [getElem?_applySlots_of_not_mem domains engine order _ i hi,
          List.getElem?_set_self hlt]

lemma collectLoop_finished (domains : List String) (engine : String → DetectionResult)
    (events : List BatchEvent) (slots : List (Option DetectionResult)) (completed : Nat)
    (h : domains.length ≤ completed) :
    collectLoop domains engine events slots completed =
      some (BatchOutcome.ok (slots.map fun slot => slot.getD zeroResult)) := by
  cases events <;> simp [collectLoop, Nat.not_lt_of_le h]

/-- Processing a block of result events advances the loop to the state where the
corresponding slots are filled and `completed` has grown by the block's length, as long
as the block does not overshoot `len(domains)`. -/
lemma collectLoop_results_prefix (domains : List String)
    (engine : String → DetectionResult) (order : List Nat) (rest : List BatchEvent)
    (slots : List (Option DetectionResult)) (completed : Nat)
    (h : completed + order.length ≤ domains.length) :
    collectLoop domains engine (order.map BatchEvent.result ++ rest) slots completed =
      collectLoop domains engine rest (applySlots domains engine order slots)
        (completed + order.length) := by
  induction order generalizing slots completed with
  | nil => simp [applySlots_nil]
  | cons j order ih =>
      have hlt : completed < domains.length := by
        simp only [List.length_cons] at h
        omega
      simp only [List.map_cons, List.cons_append, collectLoop, if_pos hlt, List.append_eq]
      rw [ih _ (completed + 1) (by simp only [List.length_cons] at h ⊢; omega),
        applySlots_cons]
      congr 1
      simp only [List.length_cons]
      omega

lemma getD_fillTimeouts (domains : List String) (slots : List (Option DetectionResult))
    (i : Nat) (hi : i < domains.length) :
    (fillTimeouts domains slots).getD i zeroResult =
      match slots.getD i none with
      | some r => r
      | none => timeoutResult (domains.getD i "") i := by
  unfold fillTimeouts
  rw [List.getD_eq_getElem?_getD, List.getElem?_map, List.getElem?_range hi]
  rfl

lemma collectLoop_timeout_event (domains : List String) (engine : String → DetectionResult)
    (rest : List BatchEvent) (slots : List (Option DetectionResult)) (completed : Nat)
    (h : completed < domains.length) :
    collectLoop domains engine (BatchEvent.timeout :: rest) slots completed =
      some (BatchOutcome.ok (fillTimeouts domains slots)) := by
  unfold collectLoop
  rw [if_pos h]

lemma collectLoop_cancel_event (domains : List String) (engine : String → DetectionResult)
    (rest : List BatchEvent) (slots : List (Option DetectionResult)) (completed : Nat)
    (h : completed < domains.length) :
    collectLoop domains engine (BatchEvent.cancel :: rest) slots completed =
      some BatchOutcome.cancelled := by
  unfold collectLoop
  rw [if_pos h]

lemma length_fillTimeouts (domains : List String) (slots : List (Option DetectionResult)) :
    (fillTimeouts domains slots).length = domains.length := by
  simp [fillTimeouts]

lemma checkDomainsWithProgress_nil (engine : String → DetectionResult)
    (events : List BatchEvent) :
    CheckDomainsWithProgress [] engine events = some (BatchOutcome.ok []) := by
  cases events <;> simp [CheckDomainsWithProgress, collectLoop]

/-- C1 (amended): for every domain list and every order in which the concurrent per-domain
runs complete (a permutation of the input positions), `CheckDomains` on a running manager
returns exactly `len(domains)` results and the result stored at position `i` is the
pipeline result for `domains[i]`, whose domain field is `domains[i]` — the order of the
output is the input order regardless of completion order.  The result's *index* field is
whatever the pipeline run put there: the engine is called with only the domain, so the
collector cannot guarantee it equals `i` (only synthetic timeout results get `Index = i`). -/
theorem checkDomains_preserves_input_order (domains : List String)
    (engine : String → DetectionResult) (order : List Nat)
    (hperm : order.Perm (List.range domains.length)) :
    ∃ results : List DetectionResult,
      CheckDomains true domains engine (order.map BatchEvent.result) =
          some (Except.ok results) ∧
        results.length = domains.length ∧
        ∀ i, i < domains.length →
          (results.getD i zeroResult).Domain = domains.getD i "" := by
  have hlen : order.length = domains.length := by
    simpa using hperm.length_eq
  have hmem : ∀ i, i < domains.length → i ∈ order := fun i hi =>
    hperm.mem_iff.mpr (List.mem_range.mpr hi)
  by_cases hd : domains.length = 0
  · refine ⟨[], ?_, ?_, ?_⟩
    · simp [CheckDomains, hd]
    · simp [hd]
    · intro i hi
      exact absurd hi (by omega)
  · have hcdwp :
        CheckDomainsWithProgress domains engine (order.map BatchEvent.result) =
          some (BatchOutcome.ok
            ((applySlots domains engine order (List.replicate domains.length none)).map
              fun slot => slot.getD zeroResult)) := by
      unfold CheckDomainsWithProgress
      have hrun := collectLoop_results_prefix domains engine order []
        (List.replicate domains.length none) 0 (by omega)
      rw [List.append_nil] at hrun
      rw [hrun, collectLoop_finished domains engine []
        (applySlots domains engine order (List.replicate domains.length none))
        (0 + order.length) (by omega)]
    refine ⟨(applySlots domains engine order (List.replicate domains.length none)).map
      (fun slot => slot.getD zeroResult), ?_, ?_, ?_⟩
    · simp only [CheckDomains, Bool.not_true, Bool.false_eq_true, if_false, if_neg hd,
        hcdwp]
    · rw [List.length_map, length_applySlots, List.length_replicate]
    · intro i hi
      have hslot := getElem?_applySlots_of_mem domains engine order
        (List.replicate domains.length none) i (hmem i hi)
        (by rw [List.length_replicate]; exact hi)
      rw [List.getD_eq_getElem?_getD, List.getElem?_map, hslot]
      simp [engineCheckDomain]

/-- C1 (witness): a two-domain batch whose runs complete in reversed order still returns
the results in input order with the input domains. -/
theorem checkDomains_preserves_input_order_witness :
    ∃ results : List DetectionResult,
      CheckDomains true ["a.com", "b.com"] (fun _ => zeroResult)
          ([1, 0].map BatchEvent.result) =
          some (Except.ok results) ∧
        results.length = ["a.com", "b.com"].length ∧
        ∀ i, i < ["a.com", "b.com"].length →
          (results.getD i zeroResult).Domain = ["a.com", "b.com"].getD i "" :=
  checkDomains_preserves_input_order ["a.com", "b.com"] (fun _ => zeroResult) [1, 0]
    (by decide)

/-- C1 (counterexample): the claim additionally asserts `results[i].Index = i`; but the
stored result is the one the pipeline produced, and `CheckDomain` receives only the domain
string, so for a pipeline whose results carry the zero index the completed batch has
`results[1].Index = 0 ≠ 1` (its domain field is nonetheless correct). -/
theorem checkDomains_index_counterexample :
    CheckDomains true ["a.com", "b.com"] (fun _ => zeroResult)
        [BatchEvent.result 0, BatchEvent.result 1] =
      some (Except.ok
        [{ zeroResult with Domain := "a.com" }, { zeroResult with Domain := "b.com" }]) ∧
      ({ zeroResult with Domain := "b.com"} : DetectionResult).Index ≠ 1 := by
  exact ⟨rfl, by decide⟩

/-- C3: when the global batch timer (1200 s) fires after the runs listed in `done` have
delivered results but before all domains have, `CheckDomainsWithProgress` returns without
error a list with exactly one entry per input domain in which every unfinished domain `i`
holds the synthetic timeout result (`Suitable = false`, domain `domains[i]`, index `i`,
error "检测超时") and every finished domain keeps the result its own pipeline run
produced. -/
theorem checkDomainsWithProgress_global_timeout (domains : List String)
    (engine : String → DetectionResult) (done : List Nat) (rest : List BatchEvent)
    (_hbound : ∀ i ∈ done, i < domains.length) (hlt : done.length < domains.length) :
    batchTimeoutSeconds = 1200 ∧
      ∃ results : List DetectionResult,
        CheckDomainsWithProgress domains engine
            (done.map BatchEvent.result ++ BatchEvent.timeout :: rest) =
          some (BatchOutcome.ok results) ∧
          results.length = domains.length ∧
          (∀ i, i < domains.length → i ∈ done →
            results.getD i zeroResult = engineCheckDomain engine (domains.getD i "")) ∧
          (∀ i, i < domains.length → i ∉ done →
            results.getD i zeroResult = timeoutResult (domains.getD i "") i ∧
              (results.getD i zeroResult).Suitable = false ∧
              (results.getD i zeroResult).Domain = domains.getD i "" ∧
              (results.getD i zeroResult).Index = i ∧
              (results.getD i zeroResult).Error = some "检测超时") := by
  refine ⟨rfl, ?_⟩
  have hrun := collectLoop_results_prefix domains engine done (BatchEvent.timeout :: rest)
    (List.replicate domains.length none) 0 (by omega)
  have hstep :
      collectLoop domains engine (BatchEvent.timeout :: rest)
          (applySlots domains engine done (List.replicate domains.length none))
          (0 + done.length) =
        some (BatchOutcome.ok
          (fillTimeouts domains
            (applySlots domains engine done (List.replicate domains.length none)))) :=
    collectLoop_timeout_event domains engine rest _ _ (by omega)
  refine ⟨fillTimeouts domains
    (applySlots domains engine done (List.replicate domains.length none)), ?_, ?_, ?_, ?_⟩
  · unfold CheckDomainsWithProgress
    rw [hrun, hstep]
  · exact length_fillTimeouts _ _
  · intro i hi hmem
    rw [getD_fillTimeouts domains _ i hi, List.getD_eq_getElem?_getD,
      getElem?_applySlots_of_mem domains engine done _ i hmem
        (by rw [List.length_replicate]; exact hi)]
    rfl
  · intro i hi hnmem
    have hslot :
        (applySlots domains engine done (List.replicate domains.length none)).getD i none =
          none := by
      rw [List.getD_eq_getElem?_getD,
        getElem?_applySlots_of_not_mem domains engine done _ i hnmem,
        List.getElem?_replicate_of_lt hi]
      rfl
    rw [getD_fillTimeouts domains _ i hi, hslot]
    exact ⟨rfl, rfl, rfl, rfl, rfl⟩

/-- C3 (witness): three domains, only domain `1` finishes before the timer fires; it keeps
its pipeline result and domains `0` and `2` get synthetic timeout results. -/
theorem checkDomainsWithProgress_global_timeout_witness :
    batchTimeoutSeconds = 1200 ∧
      ∃ results : List DetectionResult,
        CheckDomainsWithProgress ["a.com", "b.com", "c.com"] (fun _ => zeroResult)
            ([1].map BatchEvent.result ++ BatchEvent.timeout :: []) =
          some (BatchOutcome.ok results) ∧
          results.length = ["a.com", "b.com", "c.com"].length ∧
          (∀ i, i < ["a.com", "b.com", "c.com"].length → i ∈ [1] →
            results.getD i zeroResult =
              engineCheckDomain (fun _ => zeroResult)
                (["a.com", "b.com", "c.com"].getD i "")) ∧
          (∀ i, i < ["a.com", "b.com", "c.com"].length → i ∉ [1] →
            results.getD i zeroResult =
              timeoutResult (["a.com", "b.com", "c.com"].getD i "") i ∧
              (results.getD i zeroResult).Suitable = false ∧
              (results.getD i zeroResult).Domain = ["a.com", "b.com", "c.com"].getD i "" ∧
              (results.getD i zeroResult).Index = i ∧
              (results.getD i zeroResult).Error = some "检测超时") :=
  checkDomainsWithProgress_global_timeout ["a.com", "b.com", "c.com"] (fun _ => zeroResult)
    [1] [] (by decide) (by decide)

/-- C6: `CheckDomains` returns a batch-level error in exactly two situations — the manager
is not running (the "not running" error), or the shared cancellation context fires, in
which case the context's error is returned instead of per-domain results; whenever the
collection completes with a result list — whatever per-domain errors those results carry —
the batch returns that list without a batch-level error. -/
theorem checkDomains_batch_error_conditions (running : Bool) (domains : List String)
    (engine : String → DetectionResult) (events : List BatchEvent)
    (out : Except BatchError (List DetectionResult))
    (h : CheckDomains running domains engine events = some out) :
    ((∃ e, out = Except.error e) ↔
        (running = false ∨
          CheckDomainsWithProgress domains engine events = some BatchOutcome.cancelled)) ∧
      (running = false → out = Except.error BatchError.notRunning) ∧
      (∀ results, running = true →
        CheckDomainsWithProgress domains engine events = some (BatchOutcome.ok results) →
        out = Except.ok results) := by
  cases running with
  | false =>
      simp only [CheckDomains, Bool.not_false, if_true, Option.some_inj] at h
      subst h
      refine ⟨by simp, fun _ => rfl, ?_⟩
      intro results hr _
      exact absurd hr (by decide)
  | true =>
      simp only [CheckDomains, Bool.not_true, Bool.false_eq_true, if_false] at h
      by_cases hd : domains.length = 0
      · rw [if_pos hd] at h
        have hnil : domains = [] := List.length_eq_zero.mp hd
        subst hnil
        simp only [Option.some_inj] at h
        subst h
        refine ⟨?_, ?_, ?_⟩
        · constructor
          · rintro ⟨e, he⟩
            simp at he
          · rintro (hf | hc)
            · exact absurd hf (by decide)
            · rw [checkDomainsWithProgress_nil] at hc
              simp at hc
        · intro hf
          exact absurd hf (by decide)
        · intro results _ hw
          rw [checkDomainsWithProgress_nil] at hw
          simp only [Option.some_inj, BatchOutcome.ok.injEq] at hw
          rw [← hw]
      · rw [if_neg hd] at h
        cases hw : CheckDomainsWithProgress domains engine events with
        | none =>
            rw [hw] at h
            exact absurd h (by simp)
        | some outcome =>
            rw [hw] at h
            cases outcome with
            | cancelled =>
                simp only [Option.some_inj] at h
                subst h
                refine ⟨?_, ?_, ?_⟩
                · simp [hw]
                · intro hf
                  exact absurd hf (by decide)
                · intro results _ hok
                  simp at hok
            | ok results =>
                simp only [Option.some_inj] at h
                subst h
                refine ⟨?_, ?_, ?_⟩
                · constructor
                  · rintro ⟨e, he⟩
                    simp at he
                  · rintro (hf | hc)
                    · exact absurd hf (by decide)
                    · simp at hc
                · intro hf
                  exact absurd hf (by decide)
                · intro results2 _ hok
                  simp only [Option.some_inj, BatchOutcome.ok.injEq] at hok
                  rw [hok]

/-- C6 (witness): with the manager running, a cancellation event makes `CheckDomains`
return the context's error — and the not-running/completion clauses hold vacuously. -/
theorem checkDomains_batch_error_conditions_witness :
    ((∃ e, (Except.error BatchError.ctxCancelled :
          Except BatchError (List DetectionResult)) = Except.error e) ↔
        (true = false ∨
          CheckDomainsWithProgress ["a.com"] (fun _ => zeroResult) [BatchEvent.cancel] =
            some BatchOutcome.cancelled)) ∧
      (true = false →
        (Except.error BatchError.ctxCancelled :
          Except BatchError (List DetectionResult)) =
          Except.error BatchError.notRunning) ∧
      (∀ results, true = true →
        CheckDomainsWithProgress ["a.com"] (fun _ => zeroResult) [BatchEvent.cancel] =
          some (BatchOutcome.ok results) →
        (Except.error BatchError.ctxCancelled :
          Except BatchError (List DetectionResult)) = Except.ok results) :=
  checkDomains_batch_error_conditions true ["a.com"] (fun _ => zeroResult)
    [BatchEvent.cancel] (Except.error BatchError.ctxCancelled) rfl

/-! ## Concurrency bound (the semaphore in `CheckDomainsWithProgress`)

`CheckDomainsWithProgress` sizes a buffered channel used as a counting semaphore with
`concurrency := int(bm.config.Concurrency.MinConcurrent)`; every worker goroutine sends
into it before invoking `bm.engine.CheckDomain` and receives from it (releases) when the
pipeline returns.  A worker is therefore *running its pipeline* exactly between its
acquire and its release.  Worker interleavings are modelled as traces of acquire/release
events; an acquire can only fire while fewer than `capacity` workers hold a slot (a send
on a full buffered channel blocks). -/

/-- The semaphore capacity used by the batch manager:
`concurrency := int(bm.config.Concurrency.MinConcurrent)`. -/
def poolCapacity (config : Config) : Nat :=
  config.Concurrency.MinConcurrent.toNat

/-- Phase of one worker goroutine: before acquiring the semaphore, running its pipeline
while holding a slot, or finished (slot released). -/
inductive WorkerPhase where
  | waiting : WorkerPhase
  | running : WorkerPhase
  | done : WorkerPhase
deriving DecidableEq, Repr

/-- Scheduler event: worker `i` acquires the semaphore (starts its pipeline) or releases
it (its pipeline returned). -/
inductive SemEvent where
  | acquire : Nat → SemEvent
  | release : Nat → SemEvent
deriving DecidableEq, Repr

/-- Number of workers currently holding a semaphore slot (pipelines running). -/
def countRunning (workers : List WorkerPhase) : Nat :=
  workers.countP fun w => decide (w = WorkerPhase.running)

/-- One scheduler step.  An acquire by a waiting worker fires only while the semaphore has
a free slot (`countRunning < capacity`); a release fires only for a running worker; any
other event cannot occur (`none`). -/
def semStep (capacity : Nat) (workers : List WorkerPhase) :
    SemEvent → Option (List WorkerPhase)
  | SemEvent.acquire i =>
    match workers[i]? with
    | some WorkerPhase.waiting =>
        if countRunning workers < capacity then some (workers.set i WorkerPhase.running)
        else none
    | _ => none
  | SemEvent.release i =>
    match workers[i]? with
    | some WorkerPhase.running => some (workers.set i WorkerPhase.done)
    | _ => none

/-- Run a trace of scheduler events from a worker-phase state. -/
def semRun (capacity : Nat) (workers : List WorkerPhase) :
    List SemEvent → Option (List WorkerPhase)
  | [] => some workers
  | e :: rest =>
    match semStep capacity workers e with
    | some workers2 => semRun capacity workers2 rest
    | none => none

lemma countP_set {α : Type} (p : α → Bool) (l : List α) (i : Nat) (v w : α)
    (h : l[i]? = some w) :
    (l.set i v).countP p + (if p w then 1 else 0) =
      l.countP p + (if p v then 1 else 0) := by
  induction l generalizing i with
  | nil => simp at h
  | cons a l ih =>
      cases i with
      | zero =>
          simp only [List.getElem?_cons_zero, Option.some_inj] at h
          subst h
          simp [List.countP_cons]
          omega
      | succ i =>
          simp only [List.getElem?_cons_succ] at h
          simp only [List.set_cons_succ, List.countP_cons]
          have := ih i h
          omega

lemma countRunning_semStep (capacity : Nat) (workers workers2 : List WorkerPhase)
    (e : SemEvent) (hstep : semStep capacity workers e = some workers2)
    (hinv : countRunning workers ≤ capacity) :
    countRunning workers2 ≤ capacity := by
  cases e with
  | acquire i =>
      simp only [semStep] at hstep
      cases hw : workers[i]? with
      | none => rw [hw] at hstep; cases hstep
      | some phase =>
          rw [hw] at hstep
          cases phase with
          | waiting =>
              by_cases hc : countRunning workers < capacity
              · rw [if_pos hc, Option.some_inj] at hstep
                subst hstep
                have hcount := countP_set (fun w => decide (w = WorkerPhase.running))
                  workers i WorkerPhase.running WorkerPhase.waiting hw
                have h1 : countRunning (workers.set i WorkerPhase.running) =
                    countRunning workers + 1 := by
                  simpa [countRunning] using hcount
                omega
              · rw [if_neg hc] at hstep
                cases hstep
          | running => cases hstep
          | done => cases hstep
  | release i =>
      simp only [semStep] at hstep
      cases hw : workers[i]? with
      | none => rw [hw] at hstep; cases hstep
      | some phase =>
          rw [hw] at hstep
          cases phase with
          | waiting => cases hstep
          | done => cases hstep
          | running =>
              rw [Option.some_inj] at hstep
              subst hstep
              have hcount := countP_set (fun w => decide (w = WorkerPhase.running))
                workers i WorkerPhase.done WorkerPhase.running hw
              have h1 : countRunning (workers.set i WorkerPhase.done) + 1 =
                  countRunning workers := by
                simpa [countRunning] using hcount
              omega

lemma countRunning_semRun (capacity : Nat) (workers workers2 : List WorkerPhase)
    (events : List SemEvent) (hrun : semRun capacity workers events = some workers2)
    (hinv : countRunning workers ≤ capacity) :
    countRunning workers2 ≤ capacity := by
  induction events generalizing workers with
  | nil =>
      simp only [semRun, Option.some_inj] at hrun
      subst hrun
      exact hinv
  | cons e rest ih =>
      simp only [semRun] at hrun
      cases hstep : semStep capacity workers e with
      | none => rw [hstep] at hrun; cases hrun
      | some workers1 =>
          rw [hstep] at hrun
          exact ih workers1 hrun
            (countRunning_semStep capacity workers workers1 e hstep hinv)

/-- C8: during a batch over `M` domains, with the counting semaphore sized from the
configuration (`config.Concurrency.MinConcurrent`, the field `manager.go` reads), every
reachable scheduler state — i.e. every state produced by a valid trace of
acquire/release events from the all-waiting initial state — has at most `poolCapacity
config` pipelines running simultaneously, because an acquire fires only while a slot is
free. -/
theorem semaphore_bounds_concurrency (config : Config) (M : Nat)
    (events : List SemEvent) (workers : List WorkerPhase)
    (hrun : semRun (poolCapacity config) (List.replicate M WorkerPhase.waiting) events =
      some workers) :
    countRunning workers ≤ poolCapacity config := by
  apply countRunning_semRun (poolCapacity config) _ workers events hrun
  unfold countRunning
  rw [List.countP_eq_length_filter]
  have : (List.replicate M WorkerPhase.waiting).filter
      (fun w => decide (w = WorkerPhase.running)) = [] := by
    rw [List.filter_eq_nil_iff]
    intro a ha
    rw [List.eq_of_mem_replicate ha]
    decide
  rw [this]
  exact Nat.zero_le _

/-- C8 (witness): capacity 2 (from a configuration with `MinConcurrent = 2`) and three
workers — after `acquire 0, acquire 1, release 0, acquire 2` the schedule is valid and two
pipelines run, within the bound. -/
theorem semaphore_bounds_concurrency_witness :
    countRunning [WorkerPhase.done, WorkerPhase.running, WorkerPhase.running] ≤
      poolCapacity
        { zeroConfig with
          Concurrency := { MaxConcurrent := 8, MinConcurrent := 2,
                           CheckTimeout := 0, CacheTTL := 0 } } :=
  semaphore_bounds_concurrency
    { zeroConfig with
      Concurrency := { MaxConcurrent := 8, MinConcurrent := 2,
                       CheckTimeout := 0, CacheTTL := 0 } }
    3
    [SemEvent.acquire 0, SemEvent.acquire 1, SemEvent.release 0, SemEvent.acquire 2]
    [WorkerPhase.done, WorkerPhase.running, WorkerPhase.running]
    (by decide)

end RealityChecker
